import Mathlib

/-!
Shallow embedding of the DataFide batch-extraction pipeline.

The repository contains two snapshots of the App component (both in
src/unnamed/part_000, separated by a document marker): the first snapshot's
functions are modelled under their source names (`processData`,
`handleDocumentChange`, `handleExcelChange`); the second snapshot's variants
carry a `2` suffix (`processData2`, `handleDocumentChange2`).  Likewise the
spreadsheet helpers exist in two snapshots: src/unnamed/part_001 (modelled
under the source names) and src/utils/fileHandlers.ts (modelled with a `Util`
suffix).

JavaScript scalars (string | number | boolean, the value type of
`ExtractedData` in src/types.ts) are modelled by `Scalar`; JS object lookup
(`result[h]`, undefined for a missing key) is modelled by
`String → Option Scalar`; rows are association lists in header order.
-/

namespace DataFide

/-- JS scalar values: the `string | number | boolean` of `ExtractedData`. -/
inductive Scalar where
  | str (s : String)
  | num (n : Int)
  | boolean (b : Bool)
deriving DecidableEq, Repr

/-- JS truthiness on scalars: `""`, `0` and `false` are falsy. -/
def truthy : Scalar → Bool
  | .str s => s ≠ ""
  | .num n => n ≠ 0
  | .boolean b => b

/-- JS `String(v)` on a scalar. -/
def jsToString : Scalar → String
  | .str s => s
  | .num n => toString n
  | .boolean true => "true"
  | .boolean false => "false"

/-- An extraction result: JS object lookup, `none` for a missing key. -/
def ExtractResult := String → Option Scalar

/-- A produced row: one (header, value) entry per header, in header order. -/
abbrev RowT := List (String × Scalar)

/-- Lookup in a produced row (JS `row[h]`, first entry wins). -/
def rowLookup (row : RowT) (h : String) : Option Scalar :=
  (row.find? (fun p => p.1 == h)).map Prod.snd

/-- First snapshot's row normalization (src/unnamed/part_000 lines 140-143):
`fullRow[h] = result[h] !== undefined ? result[h] : ''` for each `h` in
`allHeaders`. -/
def normalizeRow (result : ExtractResult) (allHeaders : List String) : RowT :=
  allHeaders.map (fun h =>
    (h, match result h with
        | some v => v
        | none => Scalar.str ""))

/-- Second snapshot's row normalization (src/unnamed/part_000 lines 630-633):
`fullRow[h] = result[h] || ''` for each `h` in `allHeaders` — a falsy value
(including `false`, `0`, `""`) is replaced by `''`. -/
def normalizeRow2 (result : ExtractResult) (allHeaders : List String) : RowT :=
  allHeaders.map (fun h =>
    (h, match result h with
        | some v => if truthy v then v else Scalar.str ""
        | none => Scalar.str ""))

/-! ## Spreadsheet adapter

`XLSX.read` + `XLSX.utils.sheet_to_json(worksheet, { header: 1 })` turn the
first sheet into an array of rows of cells; a cell read from the sheet is a
scalar, while a hole in a sparse row reads as `undefined`.  The embedding
takes that array (`List (List Cell)`) as the input of the header parsers. -/

/-- A cell of the `header: 1` row array: `undefined` (sparse hole), `null`,
or a scalar value. -/
inductive Cell where
  | undef
  | nullc
  | val (v : Scalar)
deriving DecidableEq, Repr

/-- JS `String(c)` on a cell. -/
def cellToString : Cell → String
  | .undef => "undefined"
  | .nullc => "null"
  | .val v => jsToString v

/-- JS `s.trim()`: strip leading and trailing whitespace. -/
def jsTrim (s : String) : String :=
  ⟨(((s.data.dropWhile Char.isWhitespace).reverse.dropWhile Char.isWhitespace).reverse)⟩

/-- The filter of src/unnamed/part_001 line 25:
`h !== undefined && h !== null && String(h).trim() !== ''`. -/
def cellKeep (c : Cell) : Bool :=
  match c with
  | .undef => false
  | .nullc => false
  | .val v => jsTrim (jsToString v) ≠ ""

/-- Model of `parseExcelHeaders` of src/unnamed/part_001 (lines 12-36), from the point
where the sheet has been read into its row array: if there is a first row,
filter out undefined/null/blank-after-trim cells and stringify the rest;
otherwise return `[]`. -/
def parseExcelHeaders (jsonData : List (List Cell)) : List String :=
  match jsonData with
  | [] => []
  | row :: _ => (row.filter cellKeep).map cellToString

/-- Model of `parseExcelHeaders` of src/utils/fileHandlers.ts (lines 13-35): if there
is a first row it is returned as-is (the `as string[]` cast has no runtime
effect — no filtering, no stringification); otherwise `[]`. -/
def parseExcelHeadersUtil (jsonData : List (List Cell)) : List Cell :=
  match jsonData with
  | [] => []
  | row :: _ => row

/-- Result of the merge-and-export step: the rewritten first sheet (as the
header-keyed records that `json_to_sheet` receives) and the download file
name. -/
structure ExportResult where
  sheetRows : List RowT
  fileName : String
deriving DecidableEq, Repr

/-- Model of `appendAndDownloadExcel` of src/unnamed/part_001 (lines 38-60), from the
point where the first sheet has been read into header-keyed records
(`existingData`): `combinedData = [...existingData, ...newData]` becomes the
new first sheet, written to `datafide_results_` + original name. -/
def appendAndDownloadExcel (originalName : String) (existingData : List RowT)
    (newData : List RowT) : ExportResult :=
  { sheetRows := existingData ++ newData
    fileName := "datafide_results_" ++ originalName }

/-- Model of `appendAndDownloadExcel` of src/utils/fileHandlers.ts (lines 37-54): same
row logic, file name prefixed `updated_`. -/
def appendAndDownloadExcelUtil (originalName : String) (existingData : List RowT)
    (newData : List RowT) : ExportResult :=
  { sheetRows := existingData ++ newData
    fileName := "updated_" ++ originalName }

/-! ## JS `String.prototype.includes` -/

/-- Whether `pat` occurs at the start of `l`. -/
def startsWithChars : List Char → List Char → Bool
  | [], _ => true
  | _ :: _, [] => false
  | a :: as, b :: bs => a = b && startsWithChars as bs

/-- Whether `pat` occurs somewhere in `l`. -/
def containsChars (pat : List Char) : List Char → Bool
  | [] => pat.isEmpty
  | c :: rest => startsWithChars pat (c :: rest) || containsChars pat rest

/-- JS `s.includes(pat)`: substring containment. -/
def strIncludes (s pat : String) : Bool :=
  containsChars pat.data s.data

/-! ## Application state (the App component of src/unnamed/part_000) -/

/-- An uploaded file as the handlers see it: declared name, declared media
type, and the data-URL the browser `FileReader` produces for it
(`fileToBase64`). -/
structure FileT where
  name : String
  mediaType : String
  dataUrl : String
deriving DecidableEq, Repr

/-- Model of `fileToBase64` (src/utils/fileHandlers.ts lines 4-11): the browser reads
the file as a data URL; modelled as returning the file's stored encoding. -/
def fileToBase64 (f : FileT) : String := f.dataUrl

/-- A document preview: `{ url: base64, type: file.type, name: file.name }`. -/
structure Preview where
  url : String
  mediaType : String
  name : String
deriving DecidableEq, Repr

/-- An extraction template `{ id, label, prompt }`. -/
structure Template where
  id : String
  label : String
  prompt : String
deriving DecidableEq, Repr

/-- Model of `EXTRACTION_TEMPLATES` (identical in both snapshots of part_000). -/
def EXTRACTION_TEMPLATES : List Template :=
  [ ⟨"custom", "Custom Instructions", ""⟩,
    ⟨"invoice", "Invoice / Billing",
      "Extract billing details: Invoice #, Date, Vendor Name, Total Amount, Tax, and Currency."⟩,
    ⟨"receipt", "Retail Receipt",
      "Extract store name, date, time, total price, and items purchased list."⟩,
    ⟨"business_card", "Business Card",
      "Extract contact name, company, email, phone number, and address."⟩,
    ⟨"form", "Standard Form",
      "Extract all key-value pairs from the form fields accurately."⟩ ]

/-- Model of `ProcessingStatus` (src/types.ts). -/
inductive ProcessingStatus where
  | idle
  | loading
  | success
  | error
deriving DecidableEq, Repr

/-- The App component's state variables. -/
structure AppState where
  docFiles : List FileT
  docPreviews : List Preview
  excelFile : Option String
  allHeaders : List String
  selectedHeaders : List String
  selectedTemplate : Template
  customInstructions : String
  status : ProcessingStatus
  extractedRows : List RowT
  errMsg : Option String
deriving DecidableEq, Repr

/-- The file-type filter of both `handleDocumentChange` snapshots:
`f.type.includes('image') || f.type.includes('pdf')`. -/
def fileValid (f : FileT) : Bool :=
  strIncludes f.mediaType "image" || strIncludes f.mediaType "pdf"

/-- The preview built for an accepted file:
`{ url: await fileToBase64(file), type: file.type, name: file.name }`. -/
def mkPreview (f : FileT) : Preview :=
  ⟨fileToBase64 f, f.mediaType, f.name⟩

/-- Model of `handleDocumentChange` of the first snapshot (src/unnamed/part_000 lines
49-67): filter to image/pdf files; if none are valid but the selection was
non-empty, set an error and add nothing; otherwise clear the error and append
the valid files and their previews. -/
def handleDocumentChange (s : AppState) (files : List FileT) : AppState :=
  let validFiles := files.filter fileValid
  if validFiles.length = 0 ∧ files.length > 0 then
    { s with errMsg := some "Please select valid image (JPG, PNG) or PDF files." }
  else
    { s with errMsg := none
             docFiles := s.docFiles ++ validFiles
             docPreviews := s.docPreviews ++ validFiles.map mkPreview }

/-- Model of `handleDocumentChange` of the second snapshot (src/unnamed/part_000 lines
556-573): same filtering; the error message differs and a prior error is not
cleared on the accepting path. -/
def handleDocumentChange2 (s : AppState) (files : List FileT) : AppState :=
  let validFiles := files.filter fileValid
  if validFiles.length = 0 ∧ files.length > 0 then
    { s with errMsg := some "No valid images or PDF files found in selection." }
  else
    { s with docFiles := s.docFiles ++ validFiles
             docPreviews := s.docPreviews ++ validFiles.map mkPreview }

/-- Model of `removeExcelFile` (both snapshots): clear the spreadsheet, its headers
and the selection. -/
def removeExcelFile (s : AppState) : AppState :=
  { s with excelFile := none, allHeaders := [], selectedHeaders := [] }

/-- Model of `handleExcelChange` of the first snapshot (src/unnamed/part_000 lines
88-107), given the outcome of `parseExcelHeaders` (`Except Unit` models the
rejected promise caught by the `catch`): store the file and clear the error;
on parse failure or an empty header list, set an error and reset the
spreadsheet state; otherwise store the headers and select them all. -/
def handleExcelChange (s : AppState) (fileName : String)
    (parsed : Except Unit (List String)) : AppState :=
  let s1 := { s with excelFile := some fileName, errMsg := none }
  let readFailMsg := "Error reading the Excel file. Please ensure it's a valid XLSX, XLS, or CSV."
  let emptyMsg := "The selected Excel file appears to be empty or missing headers."
  match parsed with
  | .error _ =>
      removeExcelFile { s1 with errMsg := some readFailMsg }
  | .ok foundHeaders =>
      if foundHeaders.length = 0 then
        removeExcelFile { s1 with errMsg := some emptyMsg }
      else
        { s1 with allHeaders := foundHeaders, selectedHeaders := foundHeaders }

/-! ## Extraction client (src/services/geminiService.ts)

The vendor call itself is the external boundary; what the source determines
is the request schema built from `targetColumns` (lines 19-25 build one
property per column, line 49 sets `required: targetColumns`). -/

/-- The JSON response schema of `extractDataFromDocument`: its property keys
and its `required` list. -/
structure RequestSchema where
  propertyKeys : List String
  required : List String
deriving DecidableEq, Repr

/-- The schema `extractDataFromDocument` builds from its `targetColumns`
argument: `properties` has one entry per column (in order) and
`required = targetColumns`. -/
def buildRequestSchema (targetColumns : List String) : RequestSchema :=
  { propertyKeys := targetColumns, required := targetColumns }

/-! ## Batch orchestrator (`processData`, both snapshots)

The external extraction call is modelled by an oracle
`e : Nat → Except String ExtractResult` giving, for each document position,
either the parsed result mapping or the thrown error's message.  Each
invocation of `extractDataFromDocument(preview.url, instructions,
selectedHeaders)` is recorded in a `CallRec` so that theorems can speak about
which documents were attempted and what was passed. -/

/-- One recorded invocation of the Extraction Client. -/
structure CallRec where
  docIndex : Nat
  url : String
  instructions : String
  targetFields : List String
deriving DecidableEq, Repr

/-- The sequential loop of `processData`, starting at document position `i`:
for each preview in order, call the client (recording the call); on success
normalize the result against `allHeaders` (with the snapshot's normalizer
`norm`) and continue; on failure stop at once, reporting the message.
Returns the rows produced in order, the failure message if any, and the call
trace. -/
def runDocs (e : Nat → Except String ExtractResult)
    (norm : ExtractResult → List String → RowT)
    (instructions : String) (selected allHeaders : List String) :
    List Preview → Nat → List RowT × Option String × List CallRec
  | [], _ => ([], none, [])
  | p :: rest, i =>
      let call : CallRec := ⟨i, p.url, instructions, selected⟩
      match e i with
      | .error msg => ([], some msg, [call])
      | .ok result =>
          let row := norm result allHeaders
          let (rows, err, calls) := runDocs e norm instructions selected allHeaders rest (i + 1)
          (row :: rows, err, call :: calls)

/-- The previews the loop of `processData` visits: it iterates
`i < docFiles.length` reading `docPreviews[i]` (the app keeps the two lists
aligned). -/
def loopPreviews (s : AppState) : List Preview :=
  s.docPreviews.take s.docFiles.length

/-- The instruction string both snapshots compute:
`selectedTemplate.id === 'custom' ? customInstructions : selectedTemplate.prompt`. -/
def instructionsOf (s : AppState) : String :=
  if s.selectedTemplate.id = "custom" then s.customInstructions else s.selectedTemplate.prompt

/-- Model of `processData` of the first snapshot (src/unnamed/part_000 lines 115-155).
Returns the resulting state, whether the run started (the branch in which the
source sets `status` to `loading`), and the call trace.  The three
preconditions are checked in order, each failure setting its own message and
leaving everything else unchanged.  A started run publishes
`setExtractedRows([...results])` after each successful document — and nothing
clears `extractedRows` at run start — so the final `extractedRows` is the last
published value: the accumulated row list once at least one document has
succeeded, and the pre-run value when the very first extraction call throws
(no publish happened).  A failure also sets `status` to `error` and surfaces
the thrown message. -/
def processData (e : Nat → Except String ExtractResult) (s : AppState) :
    AppState × Bool × List CallRec :=
  if s.docFiles.length = 0 then
    ({ s with errMsg := some "Please upload at least one image or PDF document." }, false, [])
  else if s.excelFile.isNone then
    ({ s with errMsg := some "Please upload a target Excel/CSV template." }, false, [])
  else if s.selectedHeaders.length = 0 then
    ({ s with errMsg := some "Please select at least one column to populate." }, false, [])
  else
    let (results, err, calls) :=
      runDocs e normalizeRow (instructionsOf s) s.selectedHeaders s.allHeaders (loopPreviews s) 0
    match err with
    | none =>
        ({ s with status := .success, extractedRows := results, errMsg := none }, true, calls)
    | some msg =>
        let published := if results = [] then s.extractedRows else results
        ({ s with status := .error, extractedRows := published, errMsg := some msg },
          true, calls)

/-- Model of `processData` of the second snapshot (src/unnamed/part_000 lines
614-643): one combined precondition check; the loop normalizes with
`result[h] || ''`; `setExtractedRows(newExtractedRows)` runs only after the
whole loop succeeds, so on a failure the previously published rows are kept
unchanged. -/
def processData2 (e : Nat → Except String ExtractResult) (s : AppState) :
    AppState × Bool × List CallRec :=
  if s.docFiles.length = 0 ∨ s.excelFile.isNone ∨ s.selectedHeaders.length = 0 then
    ({ s with errMsg := some "Please upload documents, an Excel file, and select at least one column." },
      false, [])
  else
    let (results, err, calls) :=
      runDocs e normalizeRow2 (instructionsOf s) s.selectedHeaders s.allHeaders (loopPreviews s) 0
    match err with
    | none =>
        ({ s with status := .success, extractedRows := results, errMsg := none }, true, calls)
    | some msg =>
        ({ s with status := .error, errMsg := some msg }, true, calls)

/-! ## Helper lemmas -/

/-- Keys of a first-snapshot normalized row are exactly the header list. -/
theorem normalizeRow_keys (res : ExtractResult) (H : List String) :
    (normalizeRow res H).map Prod.fst = H := by
  simp [normalizeRow, Function.comp_def]

/-- Keys of a second-snapshot normalized row are exactly the header list. -/
theorem normalizeRow2_keys (res : ExtractResult) (H : List String) :
    (normalizeRow2 res H).map Prod.fst = H := by
  simp [normalizeRow2, Function.comp_def]

/-- When every call from position `i` on succeeds, the loop produces one
normalized row and one call record per preview, in order. -/
theorem runDocs_ok (e : Nat → Except String ExtractResult)
    (norm : ExtractResult → List String → RowT) (ins : String)
    (sel allH : List String) (r : Nat → ExtractResult) :
    ∀ (ps : List Preview) (i : Nat),
      (∀ j, j < ps.length → e (i + j) = .ok (r (i + j))) →
      runDocs e norm ins sel allH ps i =
        ((List.enumFrom i ps).map (fun q => norm (r q.1) allH), none,
         (List.enumFrom i ps).map (fun q => (⟨q.1, q.2.url, ins, sel⟩ : CallRec)))
  | [], i, _ => by simp [runDocs]
  | p :: rest, i, h => by
      have h0 : e i = .ok (r i) := by
        have := h 0 (Nat.succ_pos _)
        simpa using this
      have hrec := runDocs_ok e norm ins sel allH r rest (i + 1) (by
        intro j hj
        have := h (j + 1) (by simpa using Nat.succ_lt_succ hj)
        have harith : i + (j + 1) = i + 1 + j := by omega
        rwa [harith] at this)
      simp [runDocs, h0, hrec, List.enumFrom]

/-- When the calls at positions `i..i+k-1` succeed and the call at `i+k`
fails with `msg`, the loop stops there: it produces the `k` normalized rows
of the first `k` previews, reports `msg`, and records exactly the first
`k + 1` calls. -/
theorem runDocs_fail (e : Nat → Except String ExtractResult)
    (norm : ExtractResult → List String → RowT) (ins : String)
    (sel allH : List String) (r : Nat → ExtractResult) (msg : String) :
    ∀ (ps : List Preview) (i k : Nat), k < ps.length →
      (∀ j, j < k → e (i + j) = .ok (r (i + j))) →
      e (i + k) = .error msg →
      runDocs e norm ins sel allH ps i =
        ((List.enumFrom i (ps.take k)).map (fun q => norm (r q.1) allH), some msg,
         (List.enumFrom i (ps.take (k + 1))).map
           (fun q => (⟨q.1, q.2.url, ins, sel⟩ : CallRec)))
  | [], _, k, hk, _, _ => by simp at hk
  | p :: rest, i, 0, _, _, hfail => by
      have h0 : e i = .error msg := by simpa using hfail
      simp [runDocs, h0, List.enumFrom]
  | p :: rest, i, k + 1, hk, hok, hfail => by
      have h0 : e i = .ok (r i) := by
        have := hok 0 (Nat.succ_pos _)
        simpa using this
      have hrec := runDocs_fail e norm ins sel allH r msg rest (i + 1) k
        (by simpa using Nat.lt_of_succ_lt_succ hk)
        (by
          intro j hj
          have := hok (j + 1) (Nat.succ_lt_succ hj)
          have harith : i + (j + 1) = i + 1 + j := by omega
          rwa [harith] at this)
        (by
          have harith : i + (k + 1) = i + 1 + k := by omega
          rwa [harith] at hfail)
      simp [runDocs, h0, hrec, List.enumFrom]

/-- Every row the loop produces is a normalization of some extraction
result. -/
theorem runDocs_rows_shape (e : Nat → Except String ExtractResult)
    (norm : ExtractResult → List String → RowT) (ins : String)
    (sel allH : List String) :
    ∀ (ps : List Preview) (i : Nat),
      ∀ row ∈ (runDocs e norm ins sel allH ps i).1, ∃ res, row = norm res allH := by
  intro ps
  induction ps with
  | nil => intro i row hrow; simp [runDocs] at hrow
  | cons p rest ih =>
      intro i row hrow
      cases he : e i with
      | error msg => simp [runDocs, he] at hrow
      | ok res =>
          simp only [runDocs, he, List.mem_cons] at hrow
          rcases hrow with hrow | hrow
          · exact ⟨res, hrow⟩
          · exact ih (i + 1) row hrow

/-- Every recorded call passes exactly `sel` as its target field list and
`ins` as its instructions. -/
theorem runDocs_calls_fields (e : Nat → Except String ExtractResult)
    (norm : ExtractResult → List String → RowT) (ins : String)
    (sel allH : List String) :
    ∀ (ps : List Preview) (i : Nat),
      ∀ c ∈ (runDocs e norm ins sel allH ps i).2.2,
        c.targetFields = sel ∧ c.instructions = ins := by
  intro ps
  induction ps with
  | nil => intro i c hc; simp [runDocs] at hc
  | cons p rest ih =>
      intro i c hc
      cases he : e i with
      | error msg =>
          simp [runDocs, he] at hc
          simp [hc]
      | ok res =>
          simp only [runDocs, he, List.mem_cons] at hc
          rcases hc with hc | hc
          · simp [hc]
          · exact ih (i + 1) c hc

/-- Mapping a function of the index over an enumeration from 0 is mapping it
over the index range. -/
theorem enumFrom_zero_map {α β : Type} (l : List α) (f : Nat → β) :
    (List.enumFrom 0 l).map (fun q => f q.1) = (List.range l.length).map f := by
  have h2 : (List.enumFrom 0 l).map (fun q => f q.1) = (l.enum.map Prod.fst).map f := by
    rw [List.map_map]; rfl
  rw [h2, List.enum_map_fst]

/-! ## Concrete data for witnesses and counterexamples -/

/-- A concrete extraction result: `{ A: "x" }`. -/
def resA : ExtractResult := fun h => if h = "A" then some (.str "x") else none

/-- A concrete extraction result whose every value is the boolean `false`. -/
def resFalse : ExtractResult := fun _ => some (.boolean false)

/-- An oracle under which every extraction call succeeds with `resA`. -/
def oracleOk : Nat → Except String ExtractResult := fun _ => .ok resA

/-- An oracle under which document 1 succeeds and every later call throws. -/
def oracleFailAt1 : Nat → Except String ExtractResult := fun i =>
  if i = 0 then .ok resA else .error "boom"

/-- An oracle under which already the very first extraction call throws. -/
def oracleFailAt0 : Nat → Except String ExtractResult := fun _ => .error "boom0"

/-- A concrete valid document upload. -/
def file1 : FileT := ⟨"d1.png", "image/png", "data:image/png;base64,AA"⟩

/-- A second concrete valid document upload. -/
def file2 : FileT := ⟨"d2.pdf", "application/pdf", "data:application/pdf;base64,BB"⟩

/-- A third concrete valid document upload. -/
def file3 : FileT := ⟨"d3.jpg", "image/jpeg", "data:image/jpeg;base64,CC"⟩

/-- A concrete invalid (non-image, non-pdf) upload. -/
def fileTxt : FileT := ⟨"notes.txt", "text/plain", "data:text/plain;base64,DD"⟩

/-- A ready-to-run session: three documents, a spreadsheet with headers
`A`, `B`, column `A` selected, the invoice template active. -/
def baseState : AppState :=
  { docFiles := [file1, file2, file3]
    docPreviews := [mkPreview file1, mkPreview file2, mkPreview file3]
    excelFile := some "template.xlsx"
    allHeaders := ["A", "B"]
    selectedHeaders := ["A"]
    selectedTemplate := ⟨"invoice", "Invoice / Billing",
      "Extract billing details: Invoice #, Date, Vendor Name, Total Amount, Tax, and Currency."⟩
    customInstructions := ""
    status := .idle
    extractedRows := []
    errMsg := none }

/-- The same session before any document was uploaded. -/
def noDocsState : AppState := { baseState with docFiles := [], docPreviews := [] }

/-- The same session still holding a row from an earlier run, keyed by a
since-replaced header. -/
def staleState : AppState :=
  { baseState with extractedRows := [[("Old", Scalar.str "v")]] }

/-! ## C7 — merge identity on empty input -/

/-- C7: `mergeAndExport` with an empty `newRows` list writes a first sheet
equal to the original data rows, unchanged and in order; in general the
exported sheet is the original rows concatenated with `newRows` in the order
produced.  Holds for both snapshots of `appendAndDownloadExcel`. -/
theorem claim_C7 (name : String) (existingData newRows : List RowT) :
    (appendAndDownloadExcel name existingData []).sheetRows = existingData
    ∧ (appendAndDownloadExcelUtil name existingData []).sheetRows = existingData
    ∧ (appendAndDownloadExcel name existingData newRows).sheetRows
        = existingData ++ newRows
    ∧ (appendAndDownloadExcelUtil name existingData newRows).sheetRows
        = existingData ++ newRows := by
  refine ⟨?_, ?_, rfl, rfl⟩ <;> simp [appendAndDownloadExcel, appendAndDownloadExcelUtil]

/-! ## C10 — the two row normalizations are not equivalent -/

/-- C10 counterexample: on the extraction result `{ A: false }` and header
set `[A]`, the first snapshot's normalization keeps `false` while the second
maps it to `""`, so the two normalizations disagree (the claim asserted they
agree, in particular on `false`). -/
theorem claim_C10_counterexample :
    normalizeRow resFalse ["A"] = [("A", Scalar.boolean false)]
    ∧ normalizeRow2 resFalse ["A"] = [("A", Scalar.str "")]
    ∧ normalizeRow resFalse ["A"] ≠ normalizeRow2 resFalse ["A"] := by
  refine ⟨rfl, rfl, by decide⟩

/-- C10 amended: the two normalizations agree on a header set whenever every
extraction value present under one of its headers is truthy or the empty
string; they differ exactly on falsy non-`""` values such as `false` and
`0`. -/
theorem claim_C10_amended (res : ExtractResult) (headers : List String)
    (h : ∀ hd ∈ headers, ∀ v, res hd = some v → truthy v = true ∨ v = Scalar.str "") :
    normalizeRow res headers = normalizeRow2 res headers := by
  induction headers with
  | nil => rfl
  | cons hd rest ih =>
      have hhd := h hd (List.mem_cons_self hd rest)
      have hrest := ih (fun x hx v hv => h x (List.mem_cons_of_mem hd hx) v hv)
      simp only [normalizeRow, normalizeRow2, List.map_cons] at hrest ⊢
      refine congrArg₂ List.cons ?_ hrest
      cases hres : res hd with
      | none => rfl
      | some v =>
          rcases hhd v hres with ht | hstr
          · simp [ht]
          · subst hstr; simp [truthy]

/-- C10 amended witness: on `{ A: "x" }` (a truthy value) with headers
`[A, B]` the two normalizations agree. -/
theorem claim_C10_amended_witness :
    normalizeRow resA ["A", "B"] = normalizeRow2 resA ["A", "B"] :=
  claim_C10_amended resA ["A", "B"] (by decide)

/-! ## C9 — ingestion validation asymmetry -/

/-- C9: a non-empty selection with no image/pdf file is rejected whole — a
validation error is set and no document or preview is added; a selection with
at least one valid file has exactly its valid files appended (documents and
previews, in order) and the invalid members dropped with no warning.  Holds
for both snapshots of `handleDocumentChange` (the first clears any prior
error on the accepting path, the second leaves it untouched). -/
theorem claim_C9 (s : AppState) (files : List FileT) :
    (files ≠ [] → files.filter fileValid = [] →
      (handleDocumentChange s files).docFiles = s.docFiles
      ∧ (handleDocumentChange s files).docPreviews = s.docPreviews
      ∧ (handleDocumentChange s files).errMsg
          = some "Please select valid image (JPG, PNG) or PDF files."
      ∧ (handleDocumentChange2 s files).docFiles = s.docFiles
      ∧ (handleDocumentChange2 s files).docPreviews = s.docPreviews
      ∧ (handleDocumentChange2 s files).errMsg
          = some "No valid images or PDF files found in selection.")
    ∧ (files.filter fileValid ≠ [] →
      (handleDocumentChange s files).docFiles = s.docFiles ++ files.filter fileValid
      ∧ (handleDocumentChange s files).docPreviews
          = s.docPreviews ++ (files.filter fileValid).map mkPreview
      ∧ (handleDocumentChange s files).errMsg = none
      ∧ (handleDocumentChange2 s files).docFiles = s.docFiles ++ files.filter fileValid
      ∧ (handleDocumentChange2 s files).docPreviews
          = s.docPreviews ++ (files.filter fileValid).map mkPreview
      ∧ (handleDocumentChange2 s files).errMsg = s.errMsg) := by
  constructor
  · intro hne hnone
    have hcond : (files.filter fileValid).length = 0 ∧ files.length > 0 := by
      constructor
      · simp [hnone]
      · simpa [List.length_pos] using hne
    simp only [handleDocumentChange, handleDocumentChange2]
    rw [if_pos hcond, if_pos hcond]
    simp
  · intro hsome
    have hcond : ¬ ((files.filter fileValid).length = 0 ∧ files.length > 0) := by
      intro hc
      exact hsome (List.length_eq_zero.mp hc.1)
    simp only [handleDocumentChange, handleDocumentChange2]
    rw [if_neg hcond, if_neg hcond]
    simp

/-- C9 witness: a mixed selection keeps exactly the valid file; an all-invalid
selection is rejected with a message and adds nothing. -/
theorem claim_C9_witness :
    ((fileTxt :: [] : List FileT) ≠ [] → ([fileTxt] : List FileT).filter fileValid = [] →
      (handleDocumentChange baseState [fileTxt]).docFiles = baseState.docFiles
      ∧ (handleDocumentChange baseState [fileTxt]).docPreviews = baseState.docPreviews
      ∧ (handleDocumentChange baseState [fileTxt]).errMsg
          = some "Please select valid image (JPG, PNG) or PDF files."
      ∧ (handleDocumentChange2 baseState [fileTxt]).docFiles = baseState.docFiles
      ∧ (handleDocumentChange2 baseState [fileTxt]).docPreviews = baseState.docPreviews
      ∧ (handleDocumentChange2 baseState [fileTxt]).errMsg
          = some "No valid images or PDF files found in selection.")
    ∧ (([fileTxt, file1] : List FileT).filter fileValid ≠ [] →
      (handleDocumentChange baseState [fileTxt, file1]).docFiles
          = baseState.docFiles ++ ([fileTxt, file1] : List FileT).filter fileValid
      ∧ (handleDocumentChange baseState [fileTxt, file1]).docPreviews
          = baseState.docPreviews
              ++ (([fileTxt, file1] : List FileT).filter fileValid).map mkPreview
      ∧ (handleDocumentChange baseState [fileTxt, file1]).errMsg = none
      ∧ (handleDocumentChange2 baseState [fileTxt, file1]).docFiles
          = baseState.docFiles ++ ([fileTxt, file1] : List FileT).filter fileValid
      ∧ (handleDocumentChange2 baseState [fileTxt, file1]).docPreviews
          = baseState.docPreviews
              ++ (([fileTxt, file1] : List FileT).filter fileValid).map mkPreview
      ∧ (handleDocumentChange2 baseState [fileTxt, file1]).errMsg = baseState.errMsg) :=
  ⟨(claim_C9 baseState [fileTxt]).1, (claim_C9 baseState [fileTxt, file1]).2⟩

/-! ## C5 — preconditions fail closed -/

/-- C5: a run starts (the branch that sets `status` to `loading`) exactly
when at least one document is present, a spreadsheet is uploaded, and the
selected column set is non-empty; when any precondition is unmet, no
extraction call is made, a validation error message is set, and both the
batch status and the result sequence are left unchanged.  Holds for both
snapshots of `processData`. -/
theorem claim_C5 (e : Nat → Except String ExtractResult) (s : AppState) :
    ((processData e s).2.1 = true
        ↔ (s.docFiles ≠ [] ∧ s.excelFile.isSome = true ∧ s.selectedHeaders ≠ []))
    ∧ ((processData e s).2.1 = false →
        (processData e s).2.2 = []
        ∧ ((processData e s).1.errMsg).isSome = true
        ∧ (processData e s).1.status = s.status
        ∧ (processData e s).1.extractedRows = s.extractedRows)
    ∧ ((processData2 e s).2.1 = true
        ↔ (s.docFiles ≠ [] ∧ s.excelFile.isSome = true ∧ s.selectedHeaders ≠ []))
    ∧ ((processData2 e s).2.1 = false →
        (processData2 e s).2.2 = []
        ∧ ((processData2 e s).1.errMsg).isSome = true
        ∧ (processData2 e s).1.status = s.status
        ∧ (processData2 e s).1.extractedRows = s.extractedRows) := by
  by_cases h1 : s.docFiles.length = 0
  · have h1' : s.docFiles = [] := List.length_eq_zero.mp h1
    refine ⟨?_, ?_, ?_, ?_⟩ <;>
      simp [processData, processData2, h1, h1']
  · by_cases h2 : s.excelFile.isNone
    · have h2' : s.excelFile = none := Option.isNone_iff_eq_none.mp h2
      refine ⟨?_, ?_, ?_, ?_⟩ <;>
        simp [processData, processData2, h1, h2, h2']
    · by_cases h3 : s.selectedHeaders.length = 0
      · have h3' : s.selectedHeaders = [] := List.length_eq_zero.mp h3
        refine ⟨?_, ?_, ?_, ?_⟩ <;>
          simp [processData, processData2, h1, h2, h3, h3']
      · have h1' : s.docFiles ≠ [] := by
          intro hc; exact h1 (by simp [hc])
        have h2' : s.excelFile.isSome = true := by
          cases hx : s.excelFile with
          | none => rw [hx] at h2; simp at h2
          | some v => rfl
        have h3' : s.selectedHeaders ≠ [] := by
          intro hc; exact h3 (by simp [hc])
        constructor
        · constructor
          · intro _; exact ⟨h1', h2', h3'⟩
          · intro _
            simp only [processData, if_neg h1, if_neg h2, if_neg h3]
            rcases hr : runDocs e normalizeRow (instructionsOf s) s.selectedHeaders
                s.allHeaders (loopPreviews s) 0 with ⟨rows, err, calls⟩
            cases err <;> simp
        refine ⟨?_, ?_, ?_⟩
        · intro hfalse
          exfalso
          revert hfalse
          simp only [processData, if_neg h1, if_neg h2, if_neg h3]
          rcases hr : runDocs e normalizeRow (instructionsOf s) s.selectedHeaders
              s.allHeaders (loopPreviews s) 0 with ⟨rows, err, calls⟩
          cases err <;> simp
        · have hno : ¬ (s.docFiles.length = 0 ∨ s.excelFile.isNone = true
              ∨ s.selectedHeaders.length = 0) := by
            push_neg
            exact ⟨h1, by simp [h2], h3⟩
          constructor
          · intro _; exact ⟨h1', h2', h3'⟩
          · intro _
            simp only [processData2, if_neg hno]
            rcases hr : runDocs e normalizeRow2 (instructionsOf s) s.selectedHeaders
                s.allHeaders (loopPreviews s) 0 with ⟨rows, err, calls⟩
            cases err <;> simp
        · intro hfalse
          exfalso
          revert hfalse
          have hno : ¬ (s.docFiles.length = 0 ∨ s.excelFile.isNone = true
              ∨ s.selectedHeaders.length = 0) := by
            push_neg
            exact ⟨h1, by simp [h2], h3⟩
          simp only [processData2, if_neg hno]
          rcases hr : runDocs e normalizeRow2 (instructionsOf s) s.selectedHeaders
              s.allHeaders (loopPreviews s) 0 with ⟨rows, err, calls⟩
          cases err <;> simp

/-- C5 witness: with no documents uploaded, neither snapshot's run starts:
no call is made, an error message is set, status and rows are unchanged. -/
theorem claim_C5_witness :
    (processData oracleOk noDocsState).2.2 = []
    ∧ ((processData oracleOk noDocsState).1.errMsg).isSome = true
    ∧ (processData oracleOk noDocsState).1.status = noDocsState.status
    ∧ (processData oracleOk noDocsState).1.extractedRows = noDocsState.extractedRows :=
  (claim_C5 oracleOk noDocsState).2.1 (by decide)

/-- Every call the first snapshot's `processData` makes comes from its
document loop. -/
theorem processData_calls_sub (e : Nat → Except String ExtractResult) (s : AppState) :
    ∀ c ∈ (processData e s).2.2,
      c ∈ (runDocs e normalizeRow (instructionsOf s) s.selectedHeaders
            s.allHeaders (loopPreviews s) 0).2.2 := by
  intro c hc
  by_cases h1 : s.docFiles.length = 0
  · simp [processData, h1] at hc
  · by_cases h2 : s.excelFile.isNone
    · simp [processData, h1, h2] at hc
    · by_cases h3 : s.selectedHeaders.length = 0
      · simp [processData, h1, h2, h3] at hc
      · simp only [processData, if_neg h1, if_neg h2, if_neg h3] at hc
        rcases hr : runDocs e normalizeRow (instructionsOf s) s.selectedHeaders
            s.allHeaders (loopPreviews s) 0 with ⟨rows, err, calls⟩
        rw [hr] at hc
        cases err <;> simpa using hc

/-- Every call the second snapshot's `processData` makes comes from its
document loop. -/
theorem processData2_calls_sub (e : Nat → Except String ExtractResult) (s : AppState) :
    ∀ c ∈ (processData2 e s).2.2,
      c ∈ (runDocs e normalizeRow2 (instructionsOf s) s.selectedHeaders
            s.allHeaders (loopPreviews s) 0).2.2 := by
  intro c hc
  by_cases h0 : s.docFiles.length = 0 ∨ s.excelFile.isNone = true
      ∨ s.selectedHeaders.length = 0
  · simp only [processData2] at hc
    rw [if_pos h0] at hc
    simp at hc
  · simp only [processData2, if_neg h0] at hc
    rcases hr : runDocs e normalizeRow2 (instructionsOf s) s.selectedHeaders
        s.allHeaders (loopPreviews s) 0 with ⟨rows, err, calls⟩
    rw [hr] at hc
    cases err <;> simpa using hc

/-- Every row a started, successful run of the first snapshot's `processData`
leaves in `extractedRows` comes from its document loop. -/
theorem processData_rows_sub (e : Nat → Except String ExtractResult) (s : AppState)
    (hstart : (processData e s).2.1 = true)
    (hsucc : (processData e s).1.errMsg = none) :
    ∀ row ∈ (processData e s).1.extractedRows,
      row ∈ (runDocs e normalizeRow (instructionsOf s) s.selectedHeaders
            s.allHeaders (loopPreviews s) 0).1 := by
  intro row hrow
  by_cases h1 : s.docFiles.length = 0
  · simp [processData, h1] at hstart
  · by_cases h2 : s.excelFile.isNone
    · simp [processData, h1, h2] at hstart
    · by_cases h3 : s.selectedHeaders.length = 0
      · simp [processData, h1, h2, h3] at hstart
      · simp only [processData, if_neg h1, if_neg h2, if_neg h3] at hrow hsucc
        rcases hr : runDocs e normalizeRow (instructionsOf s) s.selectedHeaders
            s.allHeaders (loopPreviews s) 0 with ⟨rows, err, calls⟩
        rw [hr] at hrow hsucc
        cases err with
        | none => simpa using hrow
        | some msg => simp at hsucc

/-- After any started run of the first snapshot's `processData`, the result
sequence is either left at its pre-run value (the failure hit the first
document, so no publish happened) or consists of rows from this run's
document loop. -/
theorem processData_rows_general (e : Nat → Except String ExtractResult)
    (s : AppState) (hstart : (processData e s).2.1 = true) :
    (processData e s).1.extractedRows = s.extractedRows
    ∨ ∀ row ∈ (processData e s).1.extractedRows,
        row ∈ (runDocs e normalizeRow (instructionsOf s) s.selectedHeaders
              s.allHeaders (loopPreviews s) 0).1 := by
  by_cases h1 : s.docFiles.length = 0
  · simp [processData, h1] at hstart
  · by_cases h2 : s.excelFile.isNone
    · simp [processData, h1, h2] at hstart
    · by_cases h3 : s.selectedHeaders.length = 0
      · simp [processData, h1, h2, h3] at hstart
      · simp only [processData, if_neg h1, if_neg h2, if_neg h3]
        rcases hr : runDocs e normalizeRow (instructionsOf s) s.selectedHeaders
            s.allHeaders (loopPreviews s) 0 with ⟨rows, err, calls⟩
        cases err with
        | none =>
            right
            intro row hrow
            simpa using hrow
        | some msg =>
            by_cases hrows : rows = []
            · left
              simp [hrows]
            · right
              intro row hrow
              simp only [if_neg hrows] at hrow
              simpa using hrow

/-- After any started run of the second snapshot's `processData`, the result
sequence is either left at its pre-run value (the run failed, so nothing was
published) or consists of rows from this run's document loop. -/
theorem processData2_rows_general (e : Nat → Except String ExtractResult)
    (s : AppState) (hstart : (processData2 e s).2.1 = true) :
    (processData2 e s).1.extractedRows = s.extractedRows
    ∨ ∀ row ∈ (processData2 e s).1.extractedRows,
        row ∈ (runDocs e normalizeRow2 (instructionsOf s) s.selectedHeaders
              s.allHeaders (loopPreviews s) 0).1 := by
  by_cases h0 : s.docFiles.length = 0 ∨ s.excelFile.isNone = true
      ∨ s.selectedHeaders.length = 0
  · simp only [processData2] at hstart
    rw [if_pos h0] at hstart
    simp at hstart
  · simp only [processData2, if_neg h0]
    rcases hr : runDocs e normalizeRow2 (instructionsOf s) s.selectedHeaders
        s.allHeaders (loopPreviews s) 0 with ⟨rows, err, calls⟩
    cases err with
    | none =>
        right
        intro row hrow
        simpa using hrow
    | some msg =>
        left
        rfl

/-- Every row a started, successful run of the second snapshot's
`processData` leaves in `extractedRows` comes from its document loop. -/
theorem processData2_rows_sub (e : Nat → Except String ExtractResult) (s : AppState)
    (hstart : (processData2 e s).2.1 = true)
    (hsucc : (processData2 e s).1.errMsg = none) :
    ∀ row ∈ (processData2 e s).1.extractedRows,
      row ∈ (runDocs e normalizeRow2 (instructionsOf s) s.selectedHeaders
            s.allHeaders (loopPreviews s) 0).1 := by
  intro row hrow
  by_cases h0 : s.docFiles.length = 0 ∨ s.excelFile.isNone = true
      ∨ s.selectedHeaders.length = 0
  · simp only [processData2] at hstart
    rw [if_pos h0] at hstart
    simp at hstart
  · simp only [processData2, if_neg h0] at hrow hsucc
    rcases hr : runDocs e normalizeRow2 (instructionsOf s) s.selectedHeaders
        s.allHeaders (loopPreviews s) 0 with ⟨rows, err, calls⟩
    rw [hr] at hrow hsucc
    cases err with
    | none => simpa using hrow
    | some msg => simp at hsucc

/-! ## C2 — row-width invariant -/

/-- C2: every row a run of either snapshot publishes carries exactly one
entry per Header Set member, in header order, regardless of the selected
columns: a completed (error-free) run's rows are all keyed by the full
Header Set, and in general a started run either leaves the result sequence
at its pre-run value (a failure before any successful document publishes
nothing) or leaves only full-width rows; a header absent from the extraction
result is mapped to the empty string by both normalizations. -/
theorem claim_C2 :
    (∀ (e : Nat → Except String ExtractResult) (s : AppState),
        (processData e s).2.1 = true → (processData e s).1.errMsg = none →
        ∀ row ∈ (processData e s).1.extractedRows, row.map Prod.fst = s.allHeaders)
    ∧ (∀ (e : Nat → Except String ExtractResult) (s : AppState),
        (processData e s).2.1 = true →
        (processData e s).1.extractedRows = s.extractedRows
        ∨ ∀ row ∈ (processData e s).1.extractedRows, row.map Prod.fst = s.allHeaders)
    ∧ (∀ (e : Nat → Except String ExtractResult) (s : AppState),
        (processData2 e s).2.1 = true → (processData2 e s).1.errMsg = none →
        ∀ row ∈ (processData2 e s).1.extractedRows, row.map Prod.fst = s.allHeaders)
    ∧ (∀ (e : Nat → Except String ExtractResult) (s : AppState),
        (processData2 e s).2.1 = true →
        (processData2 e s).1.extractedRows = s.extractedRows
        ∨ ∀ row ∈ (processData2 e s).1.extractedRows, row.map Prod.fst = s.allHeaders)
    ∧ (∀ (res : ExtractResult) (headers : List String) (h : String),
        h ∈ headers → res h = none →
        rowLookup (normalizeRow res headers) h = some (Scalar.str ""))
    ∧ (∀ (res : ExtractResult) (headers : List String) (h : String),
        h ∈ headers → res h = none →
        rowLookup (normalizeRow2 res headers) h = some (Scalar.str "")) := by
  refine ⟨?_, ?_, ?_, ?_, ?_, ?_⟩
  · intro e s hstart hsucc row hrow
    obtain ⟨res, hres⟩ := runDocs_rows_shape e normalizeRow (instructionsOf s)
      s.selectedHeaders s.allHeaders (loopPreviews s) 0 row
      (processData_rows_sub e s hstart hsucc row hrow)
    rw [hres]
    exact normalizeRow_keys res s.allHeaders
  · intro e s hstart
    rcases processData_rows_general e s hstart with hpre | hloop
    · exact Or.inl hpre
    · refine Or.inr ?_
      intro row hrow
      obtain ⟨res, hres⟩ := runDocs_rows_shape e normalizeRow (instructionsOf s)
        s.selectedHeaders s.allHeaders (loopPreviews s) 0 row (hloop row hrow)
      rw [hres]
      exact normalizeRow_keys res s.allHeaders
  · intro e s hstart hsucc row hrow
    obtain ⟨res, hres⟩ := runDocs_rows_shape e normalizeRow2 (instructionsOf s)
      s.selectedHeaders s.allHeaders (loopPreviews s) 0 row
      (processData2_rows_sub e s hstart hsucc row hrow)
    rw [hres]
    exact normalizeRow2_keys res s.allHeaders
  · intro e s hstart
    rcases processData2_rows_general e s hstart with hpre | hloop
    · exact Or.inl hpre
    · refine Or.inr ?_
      intro row hrow
      obtain ⟨res, hres⟩ := runDocs_rows_shape e normalizeRow2 (instructionsOf s)
        s.selectedHeaders s.allHeaders (loopPreviews s) 0 row (hloop row hrow)
      rw [hres]
      exact normalizeRow2_keys res s.allHeaders
  · intro res headers
    induction headers with
    | nil => intro h hm; simp at hm
    | cons hd rest ih =>
        intro h hm hnone
        by_cases heq : hd = h
        · subst heq
          simp [rowLookup, normalizeRow, List.find?, hnone]
        · have hm' : h ∈ rest := by
            rcases List.mem_cons.mp hm with hcontra | hmem
            · exact absurd hcontra.symm heq
            · exact hmem
          have hbeq : (hd == h) = false := by
            simp [heq]
          simpa [rowLookup, normalizeRow, List.find?, hbeq] using ih h hm' hnone
  · intro res headers
    induction headers with
    | nil => intro h hm; simp at hm
    | cons hd rest ih =>
        intro h hm hnone
        by_cases heq : hd = h
        · subst heq
          simp [rowLookup, normalizeRow2, List.find?, hnone]
        · have hm' : h ∈ rest := by
            rcases List.mem_cons.mp hm with hcontra | hmem
            · exact absurd hcontra.symm heq
            · exact hmem
          have hbeq : (hd == h) = false := by
            simp [heq]
          simpa [rowLookup, normalizeRow2, List.find?, hbeq] using ih h hm' hnone

/-- C2 witness: a concrete successful run yields rows keyed exactly by
`[A, B]`; a concrete run failing at the first document satisfies the general
disjunction (its stale pre-run row is left untouched); and the unrequested
header `B` is mapped to `""` by both normalizations. -/
theorem claim_C2_witness :
    (([("A", Scalar.str "x"), ("B", Scalar.str "")] : RowT).map Prod.fst
        = baseState.allHeaders)
    ∧ ((processData oracleFailAt0 staleState).1.extractedRows = staleState.extractedRows
        ∨ ∀ row ∈ (processData oracleFailAt0 staleState).1.extractedRows,
            row.map Prod.fst = staleState.allHeaders)
    ∧ rowLookup (normalizeRow resA ["A", "B"]) "B" = some (Scalar.str "")
    ∧ rowLookup (normalizeRow2 resA ["A", "B"]) "B" = some (Scalar.str "") := by
  refine ⟨?_, ?_, ?_, ?_⟩
  · exact claim_C2.1 oracleOk baseState (by decide) (by decide)
      [("A", Scalar.str "x"), ("B", Scalar.str "")] (by decide)
  · exact claim_C2.2.1 oracleFailAt0 staleState (by decide)
  · exact claim_C2.2.2.2.2.1 resA ["A", "B"] "B" (by decide) rfl
  · exact claim_C2.2.2.2.2.2 resA ["A", "B"] "B" (by decide) rfl

/-! ## C4 — field scoping -/

/-- C4: every Extraction Client invocation either snapshot makes passes
exactly the selected columns as its target field list — in particular never
the full Header Set when the two differ — and the request schema built from
that list has a property key and a required entry for exactly those
columns. -/
theorem claim_C4 (e : Nat → Except String ExtractResult) (s : AppState) :
    (∀ c ∈ (processData e s).2.2,
        c.targetFields = s.selectedHeaders
        ∧ buildRequestSchema c.targetFields
            = { propertyKeys := s.selectedHeaders, required := s.selectedHeaders }
        ∧ (s.selectedHeaders ≠ s.allHeaders → c.targetFields ≠ s.allHeaders))
    ∧ (∀ c ∈ (processData2 e s).2.2,
        c.targetFields = s.selectedHeaders
        ∧ buildRequestSchema c.targetFields
            = { propertyKeys := s.selectedHeaders, required := s.selectedHeaders }
        ∧ (s.selectedHeaders ≠ s.allHeaders → c.targetFields ≠ s.allHeaders)) := by
  constructor
  · intro c hc
    have hfields := (runDocs_calls_fields e normalizeRow (instructionsOf s)
      s.selectedHeaders s.allHeaders (loopPreviews s) 0 c
      (processData_calls_sub e s c hc)).1
    refine ⟨hfields, by rw [hfields]; rfl, ?_⟩
    intro hdiff
    rw [hfields]
    exact hdiff
  · intro c hc
    have hfields := (runDocs_calls_fields e normalizeRow2 (instructionsOf s)
      s.selectedHeaders s.allHeaders (loopPreviews s) 0 c
      (processData2_calls_sub e s c hc)).1
    refine ⟨hfields, by rw [hfields]; rfl, ?_⟩
    intro hdiff
    rw [hfields]
    exact hdiff

/-- C4 witness: in a concrete run with Header Set `[A, B]` and only `A`
selected, the first recorded call carries exactly `[A]`, its schema has
property and required lists `[A]`, and it did not receive the full Header
Set. -/
theorem claim_C4_witness :
    (⟨0, fileToBase64 file1, instructionsOf baseState, ["A"]⟩ : CallRec).targetFields
        = baseState.selectedHeaders
    ∧ buildRequestSchema (⟨0, fileToBase64 file1, instructionsOf baseState,
          ["A"]⟩ : CallRec).targetFields
        = { propertyKeys := baseState.selectedHeaders
            required := baseState.selectedHeaders }
    ∧ (baseState.selectedHeaders ≠ baseState.allHeaders →
        (⟨0, fileToBase64 file1, instructionsOf baseState, ["A"]⟩ : CallRec).targetFields
          ≠ baseState.allHeaders) :=
  (claim_C4 oracleOk baseState).1
    ⟨0, fileToBase64 file1, instructionsOf baseState, ["A"]⟩ (by decide)

/-- With previews aligned to documents, the loop visits exactly the preview
list. -/
theorem loopPreviews_eq (s : AppState)
    (hlen : s.docPreviews.length = s.docFiles.length) :
    loopPreviews s = s.docPreviews := by
  rw [loopPreviews, ← hlen]
  simp

/-! ## C3 — order preservation on success -/

/-- C3: when every document's extraction call succeeds, both snapshots end in
`success` with exactly one row per document, row `i` being the normalized
extraction result of the `i`-th document in upload order (so the result
sequence is never reordered). -/
theorem claim_C3 (e : Nat → Except String ExtractResult) (r : Nat → ExtractResult)
    (s : AppState)
    (hdocs : s.docFiles ≠ []) (hexcel : s.excelFile.isSome = true)
    (hsel : s.selectedHeaders ≠ [])
    (hlen : s.docPreviews.length = s.docFiles.length)
    (hok : ∀ i, i < s.docFiles.length → e i = .ok (r i)) :
    ((processData e s).1.status = ProcessingStatus.success
      ∧ (processData e s).1.extractedRows.length = s.docFiles.length
      ∧ (processData e s).1.extractedRows
          = (List.range s.docFiles.length).map (fun i => normalizeRow (r i) s.allHeaders))
    ∧ ((processData2 e s).1.status = ProcessingStatus.success
      ∧ (processData2 e s).1.extractedRows.length = s.docFiles.length
      ∧ (processData2 e s).1.extractedRows
          = (List.range s.docFiles.length).map
              (fun i => normalizeRow2 (r i) s.allHeaders)) := by
  have h1 : ¬ s.docFiles.length = 0 := by
    simpa [List.length_eq_zero] using hdocs
  have h2 : ¬ s.excelFile.isNone = true := by
    cases hx : s.excelFile <;> simp_all
  have h3 : ¬ s.selectedHeaders.length = 0 := by
    simpa [List.length_eq_zero] using hsel
  have hno : ¬ (s.docFiles.length = 0 ∨ s.excelFile.isNone = true
      ∨ s.selectedHeaders.length = 0) := by
    push_neg
    exact ⟨h1, h2, h3⟩
  have hL : loopPreviews s = s.docPreviews := loopPreviews_eq s hlen
  have hokp : ∀ j, j < s.docPreviews.length → e (0 + j) = .ok (r (0 + j)) := by
    intro j hj
    simpa using hok j (by rw [← hlen]; exact hj)
  have hrun1 := runDocs_ok e normalizeRow (instructionsOf s) s.selectedHeaders
    s.allHeaders r s.docPreviews 0 hokp
  have hrun2 := runDocs_ok e normalizeRow2 (instructionsOf s) s.selectedHeaders
    s.allHeaders r s.docPreviews 0 hokp
  have hmap1 := enumFrom_zero_map s.docPreviews
    (fun i => normalizeRow (r i) s.allHeaders)
  have hmap2 := enumFrom_zero_map s.docPreviews
    (fun i => normalizeRow2 (r i) s.allHeaders)
  constructor
  · have hrows : (processData e s).1.extractedRows
        = (List.range s.docFiles.length).map (fun i => normalizeRow (r i) s.allHeaders) := by
      simp only [processData, if_neg h1, if_neg h2, if_neg h3, hL, hrun1]
      rw [hmap1, hlen]
    refine ⟨?_, ?_, hrows⟩
    · simp only [processData, if_neg h1, if_neg h2, if_neg h3, hL, hrun1]
    · rw [hrows]
      simp
  · have hrows : (processData2 e s).1.extractedRows
        = (List.range s.docFiles.length).map (fun i => normalizeRow2 (r i) s.allHeaders) := by
      simp only [processData2, if_neg hno, hL, hrun2]
      rw [hmap2, hlen]
    refine ⟨?_, ?_, hrows⟩
    · simp only [processData2, if_neg hno, hL, hrun2]
    · rw [hrows]
      simp

/-- C3 witness: a concrete all-success run of three documents ends in
`success` with three rows under both snapshots. -/
theorem claim_C3_witness :
    (processData oracleOk baseState).1.status = ProcessingStatus.success
    ∧ (processData oracleOk baseState).1.extractedRows.length = baseState.docFiles.length
    ∧ (processData2 oracleOk baseState).1.status = ProcessingStatus.success := by
  have h := claim_C3 oracleOk (fun _ => resA) baseState (by decide) (by decide)
    (by decide) rfl (fun i _ => rfl)
  exact ⟨h.1.1, h.1.2.1, h.2.1⟩

/-! ## C1 — fail-stop with partial preservation -/

/-- C1 counterexample: under the second snapshot's `processData`, with three
documents where document 2's extraction fails, the final state is `error`
with the message surfaced, but the published result sequence is empty — not
the one normalized row of document 1 that the claim requires (the partial
row is computed into a local array that is only published on full
success). -/
theorem claim_C1_counterexample :
    (processData2 oracleFailAt1 baseState).1.status = ProcessingStatus.error
    ∧ (processData2 oracleFailAt1 baseState).1.errMsg = some "boom"
    ∧ (processData2 oracleFailAt1 baseState).1.extractedRows = []
    ∧ (processData2 oracleFailAt1 baseState).1.extractedRows
        ≠ [normalizeRow2 resA baseState.allHeaders] := by
  refine ⟨rfl, rfl, rfl, by decide⟩

/-- C1 amended: when the extraction call for document `k` (0-based) fails,
neither snapshot attempts any later document (the recorded call indices are
exactly `0..k`), both transition to `error` and surface the failure message.
The first snapshot publishes after each successful document, so when at least
one document succeeded (`0 < k`) its published result sequence is exactly the
normalized rows of documents `0..k-1` in upload order, while a failure at the
very first document (`k = 0`) publishes nothing and keeps the pre-run result
sequence; the second snapshot publishes only after full success, so on any
failure it leaves the previously published result sequence unchanged. -/
theorem claim_C1_amended (e : Nat → Except String ExtractResult)
    (r : Nat → ExtractResult) (s : AppState) (k : Nat) (msg : String)
    (hdocs : s.docFiles ≠ []) (hexcel : s.excelFile.isSome = true)
    (hsel : s.selectedHeaders ≠ [])
    (hlen : s.docPreviews.length = s.docFiles.length)
    (hk : k < s.docFiles.length)
    (hok : ∀ j, j < k → e j = .ok (r j))
    (hfail : e k = .error msg) :
    ((processData e s).1.status = ProcessingStatus.error
      ∧ (processData e s).1.errMsg = some msg
      ∧ ((processData e s).2.2).map CallRec.docIndex = List.range (k + 1)
      ∧ (0 < k → (processData e s).1.extractedRows
          = (List.range k).map (fun i => normalizeRow (r i) s.allHeaders))
      ∧ (k = 0 → (processData e s).1.extractedRows = s.extractedRows))
    ∧ ((processData2 e s).1.status = ProcessingStatus.error
      ∧ (processData2 e s).1.errMsg = some msg
      ∧ (processData2 e s).1.extractedRows = s.extractedRows
      ∧ ((processData2 e s).2.2).map CallRec.docIndex = List.range (k + 1)) := by
  have h1 : ¬ s.docFiles.length = 0 := by
    simpa [List.length_eq_zero] using hdocs
  have h2 : ¬ s.excelFile.isNone = true := by
    cases hx : s.excelFile <;> simp_all
  have h3 : ¬ s.selectedHeaders.length = 0 := by
    simpa [List.length_eq_zero] using hsel
  have hno : ¬ (s.docFiles.length = 0 ∨ s.excelFile.isNone = true
      ∨ s.selectedHeaders.length = 0) := by
    push_neg
    exact ⟨h1, h2, h3⟩
  have hL : loopPreviews s = s.docPreviews := loopPreviews_eq s hlen
  have hkp : k < s.docPreviews.length := by rw [hlen]; exact hk
  have hokp : ∀ j, j < k → e (0 + j) = .ok (r (0 + j)) := by
    intro j hj
    simpa using hok j hj
  have hfailp : e (0 + k) = .error msg := by simpa using hfail
  have hrun1 := runDocs_fail e normalizeRow (instructionsOf s) s.selectedHeaders
    s.allHeaders r msg s.docPreviews 0 k hkp hokp hfailp
  have hrun2 := runDocs_fail e normalizeRow2 (instructionsOf s) s.selectedHeaders
    s.allHeaders r msg s.docPreviews 0 k hkp hokp hfailp
  have htk : (s.docPreviews.take k).length = k := by
    rw [List.length_take, hlen]
    omega
  have htk1 : (s.docPreviews.take (k + 1)).length = k + 1 := by
    rw [List.length_take, hlen]
    omega
  have hmapr := enumFrom_zero_map (s.docPreviews.take k)
    (fun i => normalizeRow (r i) s.allHeaders)
  have hmapidx := enumFrom_zero_map (s.docPreviews.take (k + 1)) (fun i => i)
  constructor
  · refine ⟨?_, ?_, ?_, ?_, ?_⟩
    · simp only [processData, if_neg h1, if_neg h2, if_neg h3, hL, hrun1]
    · simp only [processData, if_neg h1, if_neg h2, if_neg h3, hL, hrun1]
    · simp only [processData, if_neg h1, if_neg h2, if_neg h3, hL, hrun1]
      rw [List.map_map]
      have : (CallRec.docIndex ∘ fun q : Nat × Preview =>
          (⟨q.1, q.2.url, instructionsOf s, s.selectedHeaders⟩ : CallRec))
          = fun q : Nat × Preview => q.1 := rfl
      rw [this, hmapidx, htk1]
      simp
    · intro hkpos
      simp only [processData, if_neg h1, if_neg h2, if_neg h3, hL, hrun1]
      rw [hmapr, htk]
      have hne : (List.range k).map (fun i => normalizeRow (r i) s.allHeaders) ≠ [] := by
        simp only [ne_eq, List.map_eq_nil_iff, List.range_eq_nil]
        omega
      rw [if_neg hne]
    · intro hk0
      subst hk0
      simp only [processData, if_neg h1, if_neg h2, if_neg h3, hL, hrun1]
      simp
  · refine ⟨?_, ?_, ?_, ?_⟩
    · simp only [processData2, if_neg hno, hL, hrun2]
    · simp only [processData2, if_neg hno, hL, hrun2]
    · simp only [processData2, if_neg hno, hL, hrun2]
    · simp only [processData2, if_neg hno, hL, hrun2]
      rw [List.map_map]
      have : (CallRec.docIndex ∘ fun q : Nat × Preview =>
          (⟨q.1, q.2.url, instructionsOf s, s.selectedHeaders⟩ : CallRec))
          = fun q : Nat × Preview => q.1 := rfl
      rw [this, hmapidx, htk1]
      simp

/-- C1 amended witness: a concrete run of three documents failing at
document 2 keeps exactly document 1's row under the first snapshot, keeps
the pre-run (empty) sequence under the second, and attempts only documents
1 and 2; a concrete run failing already at document 1 keeps the stale
pre-run row under the first snapshot. -/
theorem claim_C1_amended_witness :
    (processData oracleFailAt1 baseState).1.status = ProcessingStatus.error
    ∧ (processData oracleFailAt1 baseState).1.extractedRows
        = (List.range 1).map (fun i => normalizeRow ((fun _ => resA) i) baseState.allHeaders)
    ∧ ((processData oracleFailAt1 baseState).2.2).map CallRec.docIndex = List.range 2
    ∧ (processData2 oracleFailAt1 baseState).1.extractedRows = baseState.extractedRows
    ∧ (processData oracleFailAt0 staleState).1.extractedRows = staleState.extractedRows := by
  have h := claim_C1_amended oracleFailAt1 (fun _ => resA) baseState 1 "boom"
    (by decide) (by decide) (by decide) rfl (by decide)
    (by
      intro j hj
      have hj0 : j = 0 := by omega
      subst hj0
      rfl)
    rfl
  have h0 := claim_C1_amended oracleFailAt0 (fun _ => resA) staleState 0 "boom0"
    (by decide) (by decide) (by decide) rfl (by decide)
    (by
      intro j hj
      exact absurd hj (Nat.not_lt_zero j))
    rfl
  exact ⟨h.1.1, h.1.2.2.2.1 (by decide), h.1.2.2.1, h.2.2.2.1, h0.1.2.2.2.2 rfl⟩

/-! ## C6 — header filtering -/

/-- C6 counterexample: on a sheet whose first row is the single cell `" "`,
the src/utils/fileHandlers.ts implementation of `parseExcelHeaders` returns
that cell unchanged — a blank-after-trim entry is not removed, so not every
returned header is a non-blank string (that implementation filters
nothing). -/
theorem claim_C6_counterexample :
    parseExcelHeadersUtil [[Cell.val (Scalar.str " ")]] = [Cell.val (Scalar.str " ")]
    ∧ jsTrim (cellToString (Cell.val (Scalar.str " "))) = ""
    ∧ cellKeep (Cell.val (Scalar.str " ")) = false := by
  refine ⟨rfl, by decide, by decide⟩

/-- C6 amended: the src/unnamed/part_001 implementation behaves as the claim
states — on a sheet with at least one row it returns the first row's cells as
strings with undefined/null/blank-after-trim entries removed, and every
returned header is non-blank after trimming; the src/utils/fileHandlers.ts
implementation instead returns the first row unfiltered. -/
theorem claim_C6_amended (row : List Cell) (rest : List (List Cell)) :
    parseExcelHeaders (row :: rest) = (row.filter cellKeep).map cellToString
    ∧ (∀ h ∈ parseExcelHeaders (row :: rest), jsTrim h ≠ "")
    ∧ parseExcelHeadersUtil (row :: rest) = row := by
  refine ⟨rfl, ?_, rfl⟩
  intro h hmem
  simp only [parseExcelHeaders, List.mem_map] at hmem
  obtain ⟨c, hc, hcs⟩ := hmem
  have hkeep := (List.mem_filter.mp hc).2
  cases c with
  | undef => simp [cellKeep] at hkeep
  | nullc => simp [cellKeep] at hkeep
  | val v =>
      rw [← hcs]
      simpa [cellKeep, cellToString] using hkeep

/-- C6 amended witness: on first row `[" ", "A"]` the part_001 parser keeps
exactly the stringified non-blank cells, the returned header `A` is
non-blank, and the fileHandlers.ts parser returns the row unchanged. -/
theorem claim_C6_amended_witness :
    parseExcelHeaders [[Cell.val (Scalar.str " "), Cell.val (Scalar.str "A")]]
        = (([Cell.val (Scalar.str " "), Cell.val (Scalar.str "A")]).filter cellKeep).map
            cellToString
    ∧ jsTrim "A" ≠ ""
    ∧ parseExcelHeadersUtil [[Cell.val (Scalar.str " "), Cell.val (Scalar.str "A")]]
        = [Cell.val (Scalar.str " "), Cell.val (Scalar.str "A")] := by
  have h := claim_C6_amended [Cell.val (Scalar.str " "), Cell.val (Scalar.str "A")] []
  exact ⟨h.1, h.2.1 "A" (by decide), h.2.2⟩

/-! ## C8 — empty-header boundary -/

/-- C8 counterexample: for a spreadsheet whose first row is entirely blank
cells (a single `" "`), the src/utils/fileHandlers.ts `parseExcelHeaders`
does not return an empty sequence — only the src/unnamed/part_001
implementation does. -/
theorem claim_C8_counterexample :
    parseExcelHeadersUtil [[Cell.val (Scalar.str " ")]] ≠ ([] : List Cell)
    ∧ parseExcelHeaders [[Cell.val (Scalar.str " ")]] = [] := by
  refine ⟨by decide, by decide⟩

/-- C8 amended: both implementations return an empty sequence for a sheet
with no rows, and the part_001 implementation also returns an empty sequence
when the first row is entirely blank (under fileHandlers.ts the blank row is
returned as-is); the first snapshot's `handleExcelChange` treats an empty
header list as a validation failure, not a crash: it sets a message and
resets the spreadsheet state, leaving status and rows unchanged. -/
theorem claim_C8_amended :
    parseExcelHeaders [] = []
    ∧ parseExcelHeadersUtil [] = []
    ∧ (∀ (row : List Cell) (rest : List (List Cell)),
        (∀ c ∈ row, cellKeep c = false) → parseExcelHeaders (row :: rest) = [])
    ∧ (∀ (s : AppState) (fname : String),
        (handleExcelChange s fname (Except.ok [])).errMsg
            = some "The selected Excel file appears to be empty or missing headers."
        ∧ (handleExcelChange s fname (Except.ok [])).excelFile = none
        ∧ (handleExcelChange s fname (Except.ok [])).allHeaders = []
        ∧ (handleExcelChange s fname (Except.ok [])).selectedHeaders = []
        ∧ (handleExcelChange s fname (Except.ok [])).status = s.status
        ∧ (handleExcelChange s fname (Except.ok [])).extractedRows = s.extractedRows) := by
  refine ⟨rfl, rfl, ?_, ?_⟩
  · intro row rest hall
    simp only [parseExcelHeaders]
    have hfil : row.filter cellKeep = [] := by
      induction row with
      | nil => rfl
      | cons c cs ih =>
          have hc := hall c (List.mem_cons_self c cs)
          simp only [List.filter_cons, hc, Bool.false_eq_true, if_false]
          exact ih (fun x hx => hall x (List.mem_cons_of_mem c hx))
    rw [hfil]
    rfl
  · intro s fname
    refine ⟨rfl, rfl, rfl, rfl, rfl, rfl⟩

/-- C8 amended witness: a first row of blank/null cells yields an empty
header list under the part_001 parser, and the caller rejects the upload,
clearing the stored spreadsheet and setting the validation message. -/
theorem claim_C8_amended_witness :
    parseExcelHeaders [[Cell.nullc, Cell.val (Scalar.str " ")]] = []
    ∧ (handleExcelChange baseState "t.xlsx" (Except.ok [])).excelFile = none
    ∧ (handleExcelChange baseState "t.xlsx" (Except.ok [])).errMsg
        = some "The selected Excel file appears to be empty or missing headers." := by
  have h := claim_C8_amended
  exact ⟨h.2.2.1 [Cell.nullc, Cell.val (Scalar.str " ")] [] (by decide),
    (h.2.2.2 baseState "t.xlsx").2.1, (h.2.2.2 baseState "t.xlsx").1⟩

end DataFide
